import Mathlib

/-!
Verification development for the `reprozip` command-line front end
(`reprozip/main.py` of the corr-reprozip repository).

The Python source is shallowly embedded: strings are `List Char`, machine
integers are `Nat`/`Int`, printed output is modelled as lists of lines or of
abstract line constructors, HTTP traffic is modelled as a list of issued
calls, and fallible code returns `Option`/`Except`.
-/

namespace CorrReprozip

/-! ## Python string helpers and `shell_escape` (main.py lines 39-49) -/

/-- `string.whitespace` from CPython: space, tab, newline, carriage return,
vertical tab, form feed. -/
def pyWhitespace : List Char :=
  [' ', '\t', '\n', '\r', '\x0b', '\x0c']

/-- The characters that force quoting in `shell_escape`:
`string.whitespace + '*$\\"\''`. -/
def shellSpecialChars : List Char :=
  pyWhitespace ++ ['*', '$', '\\', '"', Char.ofNat 39]

/-- Python `s.replace(c, r)` for a single-character needle `c`. -/
def replaceChar (c : Char) (r : List Char) (s : List Char) : List Char :=
  s.flatMap (fun x => if x = c then r else [x])

/-- The quoted-content transformation inside `shell_escape`:
`s.replace('\\', '\\\\').replace('"', '\\"').replace('$', '\\$')`. -/
def escapeSpecials (s : List Char) : List Char :=
  replaceChar '$' ['\\', '$']
    (replaceChar '"' ['\\', '"']
      (replaceChar '\\' ['\\', '\\'] s))

/-- `shell_escape` from main.py: if any character of
`string.whitespace + '*$\\"\''` occurs in `s`, wrap the escaped content in
double quotes, otherwise return `s` unchanged. -/
def shell_escape (s : List Char) : List Char :=
  if shellSpecialChars.any (fun c => s.contains c) then
    '"' :: escapeSpecials s ++ ['"']
  else
    s

/-- Undoing the escaping of backslash, double-quote and dollar, as the claim
describes it: a backslash followed by one of `\\`, `"`, `$` decodes to that
character, everything else is copied through. -/
def unescapeSpecials : List Char → List Char
  | [] => []
  | [c] => [c]
  | c :: d :: rest =>
    if c = '\\' ∧ (d = '\\' ∨ d = '"' ∨ d = '$') then
      d :: unescapeSpecials rest
    else
      c :: unescapeSpecials (d :: rest)

/-- Per-character action of the composed three `replace` passes. -/
def escChar (c : Char) : List Char :=
  if c = '\\' then ['\\', '\\']
  else if c = '"' then ['\\', '"']
  else if c = '$' then ['\\', '$']
  else [c]

/-! ## Executed-files row rendering (main.py lines 111-121) -/

/-- Python `s.split(sep)` for a single-character separator: always returns
at least one (possibly empty) group; `"".split(sep) == ['']`. -/
def pySplit (sep : Char) : List Char → List (List Char)
  | [] => [[]]
  | c :: rest =>
    match pySplit sep rest with
    | [] => [[]]
    | g :: gs => if c = sep then [] :: g :: gs else (c :: g) :: gs

/-- The `if not argv[-1]: argv = argv[:-1]` step: drop one trailing empty
element. -/
def stripTrailingEmpty (l : List (List Char)) : List (List Char) :=
  match l.getLast? with
  | some [] => l.dropLast
  | _ => l

/-- `os.path.basename`: the part after the last `/`. -/
def basename (s : List Char) : List Char :=
  (pySplit '/' s).getLastD []

/-- Python `' '.join`. -/
def joinSpace (ls : List (List Char)) : List Char :=
  List.intercalate [' '] ls

/-- The name-and-argv cell of one Executed-files row: split the raw
NUL-delimited `argv` field, strip a trailing empty element, join the
shell-escaped arguments, then read `argv[0]` — which is an out-of-bounds
access (`none`) when the stripped list is empty — and prepend the escaped
executable path in parentheses when `argv[0]` is neither the path nor its
basename. -/
def renderExecRow (r_name r_argv : List Char) : Option (List Char) :=
  let argv := stripTrailingEmpty (pySplit (Char.ofNat 0) r_argv)
  let cmdline := joinSpace (argv.map shell_escape)
  match argv.head? with
  | none => none
  | some a0 =>
    some (if a0 ≠ r_name ∧ a0 ≠ basename r_name then
        '(' :: shell_escape r_name ++ [')', ' '] ++ cmdline
      else
        cmdline)

/-! ## Exit-status formatting (main.py lines 83-86 and 200-205) -/

/-- Python `"{0: <2d}".format`-style left justification to a given width. -/
def pyLjust (w : Nat) (s : String) : String :=
  s ++ String.mk (List.replicate (w - s.length) ' ')

/-- The `exit` column of the Processes table in `print_db`:
`" sig{0: <2d} ".format(r_exit)` when `r_exit & 0x0100` is non-zero, else
`"    {0: <2d} ".format(r_exit)`. -/
def f_exit (r_exit : Nat) : String :=
  if r_exit &&& 0x0100 ≠ 0 then
    " sig" ++ pyLjust 2 (toString r_exit) ++ " "
  else
    "    " ++ pyLjust 2 (toString r_exit) ++ " "

/-- The warning printed by `testrun` after `print_db`, as a function of the
tracer's returned status `c`: nothing when `c == 0`, a signal warning naming
`c & 0xFF` when `c & 0x0100` is non-zero, otherwise a non-zero-code warning
naming `c` itself. -/
def exitWarning (c : Nat) : Option String :=
  if c ≠ 0 then
    if c &&& 0x0100 ≠ 0 then
      some ("\nWarning: program appears to have been terminated by signal "
        ++ toString (c &&& 0xFF))
    else
      some ("\nWarning: program exited with non-zero code " ++ toString c)
  else
    none

/-! ## The `testrun` harness and its temporary store (main.py lines 178-207) -/

/-- The on-disk state the harness manages: whether the temporary sqlite3
store created by `Path.tempfile` still exists. -/
structure FS where
  tempExists : Bool
deriving DecidableEq

/-- Outcome of the `_pytracer.execute` call: either the traced program's raw
exit status, or an engine-level exception. -/
inductive TraceOutcome where
  | ret (c : Nat)
  | engineFailure
deriving DecidableEq

/-- The body of `testrun`'s `try` block: run the tracer, then read the store
back with `print_db` (which can itself raise, `dbOk = false`), then compute
the warning. An exception anywhere makes the body fail. -/
def testrunBody (tr : TraceOutcome) (dbOk : Bool) :
    FS → FS × Except Unit (Option String) := fun s =>
  match tr with
  | TraceOutcome.engineFailure => (s, Except.error ())
  | TraceOutcome.ret c =>
    if dbOk then (s, Except.ok (exitWarning c)) else (s, Except.error ())

/-- `database.remove()` from the `finally` clause. -/
def removeTemp : FS → FS := fun _ => { tempExists := false }

/-- Python `try`/`finally`: the finaliser runs on the state the body left,
whether the body returned or raised, and a raised exception propagates. -/
def tryFinallyFS (body : FS → FS × Except Unit (Option String)) (fin : FS → FS)
    (s : FS) : FS × Except Unit (Option String) :=
  match body s with
  | (s1, r) => (fin s1, r)

/-- `testrun`: create the temporary store, run the body under
`try`/`finally` with `database.remove()` as the finaliser. -/
def testrun (tr : TraceOutcome) (dbOk : Bool) : FS × Except Unit (Option String) :=
  tryFinallyFS (testrunBody tr dbOk) removeTemp { tempExists := true }

/-! ## The `trace` pipeline (main.py lines 210-235) and `pack` (345-354) -/

/-- The externally observable actions of the full-run pipeline, in order. -/
inductive StageEv where
  | traceRun
  | writeConfig (overwrite : Bool)
  | removeFile (name : String)
  | packBundle (target : String)
  | publish
deriving DecidableEq

/-- Python `str.lower`, character by character. -/
def pyLower (s : String) : String := String.mk (s.data.map Char.toLower)

/-- Python `str.endswith`, character by character. -/
def pyEndsWith (s pat : String) : Bool := pat.data.isSuffixOf s.data

/-- `pack`'s target normalisation: append `.rpz` unless the lower-cased name
already ends in `.rpz`. -/
def packTarget (t : String) : String :=
  if pyEndsWith (pyLower t) ".rpz" then t else t ++ ".rpz"

/-- The sequence of stage events performed by the `trace` subcommand:
engine trace, `write_configuration(overwrite=False)`, removal of a
pre-existing `bundle.rpz` (only if present), `pack` with target
`bundle.rpz`, then `link_to_corr`. -/
def tracePipeline (bundleExists : Bool) : List StageEv :=
  [StageEv.traceRun, StageEv.writeConfig false] ++
    (if bundleExists then [StageEv.removeFile "bundle.rpz"] else []) ++
    [StageEv.packBundle (packTarget "bundle.rpz"), StageEv.publish]

/-- The four delegated pipeline stages (everything except the local
bundle-file removal). -/
def isDelegatedStage : StageEv → Bool
  | StageEv.removeFile _ => false
  | _ => true

/-! ## Connections report (main.py lines 149-173)

The SQL query is
`SELECT DISTINCT inbound, family, protocol, address FROM connections
 ORDER BY inbound, family, timestamp`.
Against sqlite3 this deduplicates on the four selected columns keeping the
first stored occurrence (whose timestamp then represents the group) and
sorts the surviving rows by `(inbound, family, timestamp)`; this semantics
was validated against sqlite3 on randomised stores. -/

/-- One row of the `connections` table, in store order. -/
structure ConnRow where
  timestamp : Int
  inbound : Bool
  family : String
  protocol : String
  address : String
deriving DecidableEq

/-- The four selected columns, i.e. the `DISTINCT` deduplication key. -/
def connKey (r : ConnRow) : Bool × String × String × String :=
  (r.inbound, r.family, r.protocol, r.address)

/-- Deduplication keeping the first stored occurrence of each key. -/
def dedupKeepFirst : List ConnRow → List ConnRow
  | [] => []
  | r :: rest =>
    r :: (dedupKeepFirst rest).filter (fun x => decide (connKey x ≠ connKey r))

/-- The `inbound` column as stored by the tracer (0 = outbound, 1 =
inbound). -/
def inbInt (b : Bool) : Int := if b then 1 else 0

/-- The byte-level comparison key sqlite3 uses for a TEXT column. -/
def famKey (s : String) : List Nat := s.data.map Char.toNat

/-- The `ORDER BY inbound, family, timestamp` ordering. -/
def connLE (a b : ConnRow) : Prop :=
  inbInt a.inbound < inbInt b.inbound ∨
    (inbInt a.inbound = inbInt b.inbound ∧
      (famKey a.family < famKey b.family ∨
        (famKey a.family = famKey b.family ∧ a.timestamp ≤ b.timestamp)))

instance connLE.decRel : DecidableRel connLE := fun a b => by
  unfold connLE
  infer_instance

instance connLE.isTotal : IsTotal ConnRow connLE := by
  constructor
  intro a b
  rcases lt_trichotomy (inbInt a.inbound) (inbInt b.inbound) with h | h | h
  · exact Or.inl (Or.inl h)
  · rcases lt_trichotomy (famKey a.family) (famKey b.family) with hf | hf | hf
    · exact Or.inl (Or.inr ⟨h, Or.inl hf⟩)
    · rcases le_total a.timestamp b.timestamp with ht | ht
      · exact Or.inl (Or.inr ⟨h, Or.inr ⟨hf, ht⟩⟩)
      · exact Or.inr (Or.inr ⟨h.symm, Or.inr ⟨hf.symm, ht⟩⟩)
    · exact Or.inr (Or.inr ⟨h.symm, Or.inl hf⟩)
  · exact Or.inr (Or.inl h)

instance connLE.isTrans : IsTrans ConnRow connLE := by
  constructor
  intro a b c hab hbc
  rcases hab with h1 | ⟨h1, h2⟩
  · rcases hbc with h3 | ⟨h3, _⟩
    · exact Or.inl (lt_trans h1 h3)
    · exact Or.inl (h3 ▸ h1)
  · rcases hbc with h3 | ⟨h3, h4⟩
    · exact Or.inl (h1 ▸ h3)
    · refine Or.inr ⟨h1.trans h3, ?_⟩
      rcases h2 with hf | ⟨hf, ht⟩
      · rcases h4 with hg | ⟨hg, _⟩
        · exact Or.inl (lt_trans hf hg)
        · exact Or.inl (hg ▸ hf)
      · rcases h4 with hg | ⟨hg, ht2⟩
        · exact Or.inl (hf ▸ hg)
        · exact Or.inr ⟨hf.trans hg, le_trans ht ht2⟩

/-- The result set of the `SELECT DISTINCT ... ORDER BY` query. -/
def connQuery (rows : List ConnRow) : List ConnRow :=
  List.insertionSort connLE (dedupKeepFirst rows)

/-- The lines printed by the Connections section: two directionality
titles, indented family and protocol sub-headers, and address lines. -/
inductive CLine where
  | remoteTitle
  | incomingTitle
  | familyLine (f : String)
  | protoLine (p : String)
  | addressLine (a : String)
deriving DecidableEq

/-- The rolling loop state: `header_shown` (initially -1), `current_family`
and `current_protocol` (initially `None`). -/
structure RState where
  header_shown : Int
  current_family : Option String
  current_protocol : Option String

/-- One iteration of the reporting loop: print a directionality title when
`header_shown < r_inbound` (resetting the family), a family sub-header when
`current_family != r_family` (resetting the protocol), a protocol
sub-header when `current_protocol != r_protocol`, then the address. -/
def step (st : RState) (r : ConnRow) : List CLine × RState :=
  let p1 : List CLine × Int × Option String :=
    if st.header_shown < inbInt r.inbound then
      ([if r.inbound then CLine.incomingTitle else CLine.remoteTitle],
        inbInt r.inbound, none)
    else
      ([], st.header_shown, st.current_family)
  let p2 : List CLine × Option String × Option String :=
    if p1.2.2 ≠ some r.family then
      ([CLine.familyLine r.family], some r.family, none)
    else
      ([], p1.2.2, st.current_protocol)
  let p3 : List CLine × Option String :=
    if p2.2.2 ≠ some r.protocol then
      ([CLine.protoLine r.protocol], some r.protocol)
    else
      ([], p2.2.2)
  (p1.1 ++ p2.1 ++ p3.1 ++ [CLine.addressLine r.address],
    { header_shown := p1.2.1, current_family := p2.2.1, current_protocol := p3.2 })

/-- The reporting loop over the query result. -/
def renderLoop : RState → List ConnRow → List CLine
  | _, [] => []
  | st, r :: rest => (step st r).1 ++ renderLoop (step st r).2 rest

/-- The whole Connections section. -/
def renderConnections (rows : List ConnRow) : List CLine :=
  renderLoop
    { header_shown := -1, current_family := none, current_protocol := none }
    (connQuery rows)

/-- The title for a directionality group. -/
def inbTitle (b : Bool) : CLine :=
  if b then CLine.incomingTitle else CLine.remoteTitle

/-- The lines of one rendered row, given which headers precede it. -/
def rowLines (withTitle withFam withProto : Bool) (r : ConnRow) : List CLine :=
  (if withTitle then [inbTitle r.inbound] else []) ++
    (if withFam then [CLine.familyLine r.family] else []) ++
    (if withProto then [CLine.protoLine r.protocol] else []) ++
    [CLine.addressLine r.address]

/-- Grouped rendering of all rows after the first, each compared with the
previous row: a title exactly when the directionality changes, a family
sub-header exactly when a title was printed or the family differs, a
protocol sub-header exactly when a family sub-header was printed or the
protocol differs. -/
def specChain : ConnRow → List ConnRow → List CLine
  | _, [] => []
  | prev, r :: rest =>
    rowLines (decide (prev.inbound ≠ r.inbound))
      (decide (prev.inbound ≠ r.inbound) || decide (prev.family ≠ r.family))
      (decide (prev.inbound ≠ r.inbound) || decide (prev.family ≠ r.family) ||
        decide (prev.protocol ≠ r.protocol))
      r ++ specChain r rest

/-- Grouped rendering of a (sorted, deduplicated) row list: the first row
gets all three headers, each later row as in `specChain`. -/
def specRender : List ConnRow → List CLine
  | [] => []
  | r :: rest => rowLines true true true r ++ specChain r rest

/-- Adjacent monotonicity of the directionality column. -/
def inbMono (a b : ConnRow) : Prop := inbInt a.inbound ≤ inbInt b.inbound

instance inbMono.isTrans : IsTrans ConnRow inbMono :=
  ⟨fun _ _ _ h1 h2 => le_trans h1 h2⟩

/-- The four-row example of the claim: timestamps 1..4, a duplicated
outbound TCP endpoint, one outbound UDP endpoint, one inbound TCP
endpoint. -/
def exampleRows : List ConnRow :=
  [{ timestamp := 1, inbound := false, family := "IPv4", protocol := "TCP",
     address := "1.2.3.4" },
   { timestamp := 2, inbound := false, family := "IPv4", protocol := "TCP",
     address := "1.2.3.4" },
   { timestamp := 3, inbound := false, family := "IPv4", protocol := "UDP",
     address := "5.6.7.8" },
   { timestamp := 4, inbound := true, family := "IPv4", protocol := "TCP",
     address := "9.9.9.9" }]

/-- Address-line recogniser. -/
def isAddressLine : CLine → Bool
  | CLine.addressLine _ => true
  | _ => false

/-! ## Provenance registry client (main.py lines 237-331) -/

/-- The `default.api.{host,port,key,path}` / `default.app` shape of the
registry configuration file; `none` models a field absent from the JSON. -/
structure ApiConfig where
  host : Option String
  port : Option Int
  key : Option String
  path : Option String
  app : Option String
deriving DecidableEq

/-- The template `"{0}:{1}{2}/private/{3}/{4}/".format(host, port, path,
key, token)`. -/
def formatServerTemplate (a0 a1 a2 a3 a4 : String) : String :=
  a0 ++ ":" ++ a1 ++ a2 ++ "/private/" ++ a3 ++ "/" ++ a4 ++ "/"

/-- The server base URL built by `link_to_corr`, with the source's
`dict.get` defaults (`''` everywhere, `80` for the port). -/
def serverUrl (c : ApiConfig) : String :=
  formatServerTemplate (c.host.getD "") (toString (c.port.getD 80))
    (c.path.getD "") (c.key.getD "") (c.app.getD "")

/-- A string field read the way the claim describes it: the configured
value, or the empty string when the field is absent. -/
def fieldOrEmpty (f : Option String) : String :=
  match f with
  | some v => v
  | none => ""

/-- The port read the way the claim describes it: the configured value, or
80 when absent. -/
def portOrEighty (p : Option Int) : Int :=
  match p with
  | some v => v
  | none => 80

/-- The claim's reading of the base URL:
`"{host}:{port}{path}/private/{key}/{token}/"` with empty-string defaults
except port = 80, and nothing (in particular no URL scheme) prepended
before the host. -/
def claimServerUrl (c : ApiConfig) : String :=
  fieldOrEmpty c.host ++ ":" ++ toString (portOrEighty c.port) ++
    fieldOrEmpty c.path ++ "/private/" ++ fieldOrEmpty c.key ++ "/" ++
    fieldOrEmpty c.app ++ "/"

/-- A project as returned by the registry's listing. -/
structure Proj where
  id : String
  name : String
deriving DecidableEq

/-- The parsed `content` envelope of `GET <base>/projects`, plus the raw
response body. -/
structure Listing where
  raw : String
  total_projects : Int
  projects : List Proj
deriving DecidableEq

/-- The registry's behaviour during one publish attempt: the listing
response, the parsed body of `POST project/create`, and the record-creation
response. -/
structure Registry where
  listStatus : Nat
  listing : Listing
  createdProject : Proj
  recordStatus : Nat
  recordRaw : String
  recordId : String
deriving DecidableEq

/-- One HTTP call issued by the client. -/
inductive RCall where
  | getProjects
  | createProject (name : String)
  | createRecord (projectId : String)
  | uploadFile (group : String) (recordId : String) (file : String)
deriving DecidableEq

/-- What a publish attempt did: the calls it issued, in order, and the lines
it printed. -/
structure RunLog where
  calls : List RCall
  printed : List String
deriving DecidableEq

/-- `push_record`: POST the placeholder record to
`project/record/create/<project-id>`; on status 200 upload `bundle.rpz`
with group tag `resource-record`, otherwise print the response body. -/
def push_record (reg : Registry) (project : Proj) : RunLog :=
  if reg.recordStatus == 200 then
    { calls := [RCall.createRecord project.id,
        RCall.uploadFile "resource-record" reg.recordId "bundle.rpz"],
      printed := [] }
  else
    { calls := [RCall.createRecord project.id],
      printed := [reg.recordRaw] }

/-- The scan of the returned listing: only entered when
`total_projects > 0`, and then the first project whose name equals the
requested name exactly (the `for`/`break` loop). -/
def scanProjects (l : Listing) (project_name : String) : Option Proj :=
  if l.total_projects > 0 then
    l.projects.find? (fun p => p.name == project_name)
  else
    none

/-- `link_to_corr`: without a configuration, print a message and contact
nothing; otherwise list the projects, scan the listing for an exact name
match, create the project only when no match was found, then push the
record. A listing status other than 200 prints the body and aborts. -/
def link_to_corr (cfg : Option ApiConfig) (project_name : String)
    (reg : Registry) : RunLog :=
  match cfg with
  | none => { calls := [], printed := ["Config file not provided."] }
  | some c =>
    let url := serverUrl c ++ "projects"
    if reg.listStatus == 200 then
      match scanProjects reg.listing project_name with
      | some p =>
        { calls := RCall.getProjects :: (push_record reg p).calls,
          printed := url :: (push_record reg p).printed }
      | none =>
        { calls := RCall.getProjects :: RCall.createProject project_name ::
            (push_record reg reg.createdProject).calls,
          printed := url :: (push_record reg reg.createdProject).printed }
    else
      { calls := [RCall.getProjects], printed := [url, reg.listing.raw] }

/-- A sample parsed registry configuration. -/
def cfgSample : ApiConfig :=
  { host := some "example.org", port := some 8080, key := some "KEY",
    path := some "/api", app := some "TOKEN" }

/-- A registry whose listing already contains the project `proj`, and which
accepts the record creation. -/
def regListed : Registry :=
  { listStatus := 200,
    listing := { raw := "listing-body", total_projects := 1,
                 projects := [{ id := "id1", name := "proj" }] },
    createdProject := { id := "id2", name := "proj" },
    recordStatus := 200, recordRaw := "record-body", recordId := "rec1" }

/-- The same registry answering the listing request with status 201. -/
def regTwoOhOne : Registry := { regListed with listStatus := 201 }

/-- The same registry answering the listing request with status 404. -/
def regNotFoundStatus : Registry := { regListed with listStatus := 404 }

end CorrReprozip

namespace CorrReprozip

theorem replaceChar_cons (c : Char) (r : List Char) (x : Char) (s : List Char) :
    replaceChar c r (x :: s) = (if x = c then r else [x]) ++ replaceChar c r s := by
  simp [replaceChar]

theorem replaceChar_append (c : Char) (r : List Char) (s t : List Char) :
    replaceChar c r (s ++ t) = replaceChar c r s ++ replaceChar c r t := by
  simp [replaceChar]

theorem escapeSpecials_cons (c : Char) (s : List Char) :
    escapeSpecials (c :: s) = escChar c ++ escapeSpecials s := by
  by_cases h1 : c = '\\'
  · subst h1
    simp [escapeSpecials, replaceChar_cons, replaceChar_append, escChar, replaceChar]
  · by_cases h2 : c = '"'
    · subst h2
      simp [escapeSpecials, replaceChar_cons, replaceChar_append, escChar, replaceChar]
    · by_cases h3 : c = '$'
      · subst h3
        simp [escapeSpecials, replaceChar_cons, replaceChar_append, escChar, replaceChar]
      · simp [escapeSpecials, replaceChar_cons, replaceChar_append, escChar, replaceChar,
              h1, h2, h3]

theorem unescape_cons_of_ne (c : Char) (hc : ¬ c = '\\') (l : List Char) :
    unescapeSpecials (c :: l) = c :: unescapeSpecials l := by
  cases l with
  | nil => simp [unescapeSpecials]
  | cons d rest => simp [unescapeSpecials, hc]

theorem unescape_escape (s : List Char) :
    unescapeSpecials (escapeSpecials s) = s := by
  induction s with
  | nil => simp [escapeSpecials, replaceChar, unescapeSpecials]
  | cons c s ih =>
    rw [escapeSpecials_cons]
    by_cases h1 : c = '\\'
    · subst h1
      simpa [escChar, unescapeSpecials] using ih
    · by_cases h2 : c = '"'
      · subst h2
        simpa [escChar, unescapeSpecials] using ih
      · by_cases h3 : c = '$'
        · subst h3
          simpa [escChar, unescapeSpecials] using ih
        · rw [show escChar c = [c] by simp [escChar, h1, h2, h3]]
          rw [List.singleton_append, unescape_cons_of_ne c h1]
          rw [ih]

theorem shell_escape_safe (s : List Char)
    (h : ∀ c ∈ shellSpecialChars, ¬ s.contains c) :
    shell_escape s = s := by
  unfold shell_escape
  rw [if_neg]
  intro hany
  rcases List.any_eq_true.mp hany with ⟨c, hc, hmem⟩
  exact h c hc hmem

theorem link_log_not200 (c : ApiConfig) (pname : String) (reg : Registry)
    (h : ¬ reg.listStatus = 200) :
    link_to_corr (some c) pname reg =
      { calls := [RCall.getProjects],
        printed := [serverUrl c ++ "projects", reg.listing.raw] } := by
  unfold link_to_corr
  simp [h]

theorem link_log_200_found (c : ApiConfig) (pname : String) (reg : Registry)
    (p : Proj) (h : reg.listStatus = 200)
    (hf : scanProjects reg.listing pname = some p) :
    link_to_corr (some c) pname reg =
      { calls := RCall.getProjects :: (push_record reg p).calls,
        printed := (serverUrl c ++ "projects") :: (push_record reg p).printed } := by
  unfold link_to_corr
  simp [h, hf]

theorem link_log_200_none (c : ApiConfig) (pname : String) (reg : Registry)
    (h : reg.listStatus = 200)
    (hf : scanProjects reg.listing pname = none) :
    link_to_corr (some c) pname reg =
      { calls := RCall.getProjects :: RCall.createProject pname ::
          (push_record reg reg.createdProject).calls,
        printed := (serverUrl c ++ "projects") ::
          (push_record reg reg.createdProject).printed } := by
  unfold link_to_corr
  simp [h, hf]

theorem pySplit_ne_nil (sep : Char) (s : List Char) : pySplit sep s ≠ [] := by
  cases s with
  | nil => simp [pySplit]
  | cons c rest =>
    simp only [pySplit]
    rcases pySplit sep rest with _ | ⟨g, gs⟩
    · simp
    · by_cases hc : c = sep <;> simp [hc]

theorem strip_cons_cons (x y : List Char) (ys : List (List Char)) :
    stripTrailingEmpty (x :: y :: ys) ≠ [] := by
  unfold stripTrailingEmpty
  rcases h : (x :: y :: ys).getLast? with _ | last
  · simp
  · rcases last with _ | ⟨a, as⟩
    · simp
    · simp

theorem strip_singleton_ne (a : Char) (as : List Char) :
    stripTrailingEmpty [a :: as] ≠ [] := by
  unfold stripTrailingEmpty
  simp

theorem strip_pySplit_eq_nil_iff (sep : Char) (s : List Char) :
    stripTrailingEmpty (pySplit sep s) = [] ↔ s = [] := by
  constructor
  · intro h
    by_contra hs
    rcases s with _ | ⟨c, rest⟩
    · exact hs rfl
    · revert h
      simp only [pySplit]
      rcases hps : pySplit sep rest with _ | ⟨g, gs⟩
      · exact absurd hps (pySplit_ne_nil sep rest)
      · by_cases hc : c = sep
        · simp only [hc, if_pos rfl]
          exact strip_cons_cons [] g gs
        · simp only [if_neg hc]
          rcases gs with _ | ⟨y, ys⟩
          · exact strip_singleton_ne c g
          · exact strip_cons_cons (c :: g) y ys
  · rintro rfl
    rfl

theorem dedupKeepFirst_subset (l : List ConnRow) :
    ∀ x ∈ dedupKeepFirst l, x ∈ l := by
  induction l with
  | nil => simp [dedupKeepFirst]
  | cons r rest ih =>
    intro x hx
    rcases List.mem_cons.mp hx with hx | hx
    · exact hx ▸ List.mem_cons_self r rest
    · exact List.mem_cons_of_mem r (ih x (List.mem_of_mem_filter hx))

theorem dedup_keys_nodup (l : List ConnRow) :
    ((dedupKeepFirst l).map connKey).Nodup := by
  induction l with
  | nil => simp [dedupKeepFirst]
  | cons r rest ih =>
    simp only [dedupKeepFirst, List.map_cons, List.nodup_cons]
    constructor
    · intro hmem
      rcases List.mem_map.mp hmem with ⟨y, hy, hkey⟩
      have := (List.mem_filter.mp hy).2
      rw [decide_eq_true_eq] at this
      exact this hkey
    · exact List.Nodup.sublist
        (List.Sublist.map connKey (List.filter_sublist (dedupKeepFirst rest))) ih

theorem connKey_mem_dedup (l : List ConnRow) :
    ∀ r ∈ l, connKey r ∈ (dedupKeepFirst l).map connKey := by
  induction l with
  | nil => simp
  | cons a rest ih =>
    intro r hr
    simp only [dedupKeepFirst, List.map_cons]
    rcases List.mem_cons.mp hr with hr | hr
    · exact (congrArg connKey hr) ▸ List.mem_cons_self _ _
    · by_cases hk : connKey r = connKey a
      · exact hk ▸ List.mem_cons_self _ _
      · rcases List.mem_map.mp (ih r hr) with ⟨y, hy, hkey⟩
        refine List.mem_cons_of_mem _ (List.mem_map.mpr ⟨y, ?_, hkey⟩)
        refine List.mem_filter.mpr ⟨hy, ?_⟩
        rw [decide_eq_true_eq, hkey]
        exact hk

theorem connQuery_sorted (rows : List ConnRow) :
    List.Sorted connLE (connQuery rows) :=
  List.sorted_insertionSort connLE (dedupKeepFirst rows)

theorem connQuery_perm (rows : List ConnRow) :
    List.Perm (connQuery rows) (dedupKeepFirst rows) :=
  List.perm_insertionSort connLE (dedupKeepFirst rows)

theorem connQuery_keys_nodup (rows : List ConnRow) :
    ((connQuery rows).map connKey).Nodup :=
  (((connQuery_perm rows).map connKey).nodup_iff).mpr (dedup_keys_nodup rows)

theorem connQuery_subset (rows : List ConnRow) :
    ∀ x ∈ connQuery rows, x ∈ rows := fun x hx =>
  dedupKeepFirst_subset rows x ((connQuery_perm rows).mem_iff.mp hx)

theorem connKey_mem_connQuery (rows : List ConnRow) :
    ∀ r ∈ rows, connKey r ∈ (connQuery rows).map connKey := fun r hr =>
  (((connQuery_perm rows).map connKey).mem_iff).mpr (connKey_mem_dedup rows r hr)

theorem connLE_inbMono {a b : ConnRow} (h : connLE a b) : inbMono a b := by
  rcases h with h | ⟨h, _⟩
  · exact le_of_lt h
  · exact le_of_eq h

theorem sorted_chain_inbMono (r : ConnRow) (rest : List ConnRow)
    (h : List.Sorted connLE (r :: rest)) : List.Chain inbMono r rest :=
  List.chain_iff_pairwise.mpr ((h.imp fun hab => connLE_inbMono hab))

theorem inbInt_le_ne_bool : ∀ a b : Bool,
    inbInt a ≤ inbInt b → ¬ a = b → a = false ∧ b = true := by decide

theorem inbInt_lt_of_le_ne : ∀ a b : Bool,
    inbInt a ≤ inbInt b → ¬ a = b → inbInt a < inbInt b := by decide

theorem inbInt_true_le : ∀ b : Bool, inbInt true ≤ inbInt b → b = true := by decide

theorem neg_one_lt_inbInt : ∀ b : Bool, (-1 : Int) < inbInt b := by decide

theorem step_prev (prev r : ConnRow) (hle : inbMono prev r) :
    step { header_shown := inbInt prev.inbound,
           current_family := some prev.family,
           current_protocol := some prev.protocol } r =
      (rowLines (decide (prev.inbound ≠ r.inbound))
        (decide (prev.inbound ≠ r.inbound) || decide (prev.family ≠ r.family))
        (decide (prev.inbound ≠ r.inbound) || decide (prev.family ≠ r.family) ||
          decide (prev.protocol ≠ r.protocol)) r,
       { header_shown := inbInt r.inbound, current_family := some r.family,
         current_protocol := some r.protocol }) := by
  by_cases hb : prev.inbound = r.inbound
  · by_cases hf : prev.family = r.family
    · by_cases hp : prev.protocol = r.protocol
      · simp [step, rowLines, hb, hf, hp]
      · simp [step, rowLines, hb, hf, hp]
    · simp [step, rowLines, hb, hf]
  · have hlt : inbInt prev.inbound < inbInt r.inbound :=
      inbInt_lt_of_le_ne prev.inbound r.inbound hle hb
    simp [step, rowLines, inbTitle, hb, hlt]

theorem renderLoop_eq_specChain (rest : List ConnRow) :
    ∀ prev : ConnRow, List.Chain inbMono prev rest →
    renderLoop
      { header_shown := inbInt prev.inbound,
        current_family := some prev.family,
        current_protocol := some prev.protocol } rest = specChain prev rest := by
  induction rest with
  | nil => intro prev _; rfl
  | cons r rest ih =>
    intro prev h
    rcases List.chain_cons.mp h with ⟨hle, hch⟩
    simp only [renderLoop, step_prev prev r hle, specChain]
    rw [ih r hch]

theorem renderLoop_init_eq_specRender (q : List ConnRow)
    (hs : List.Sorted connLE q) :
    renderLoop
      { header_shown := -1, current_family := none, current_protocol := none }
      q = specRender q := by
  cases q with
  | nil => rfl
  | cons r rest =>
    have hch := sorted_chain_inbMono r rest hs
    have hstep : step
        { header_shown := -1, current_family := none, current_protocol := none }
        r = (rowLines true true true r,
          { header_shown := inbInt r.inbound, current_family := some r.family,
            current_protocol := some r.protocol }) := by
      simp [step, rowLines, inbTitle, neg_one_lt_inbInt r.inbound]
    simp only [renderLoop, hstep, specRender]
    rw [renderLoop_eq_specChain rest r hch]

theorem rowLines_count_remote (wt wf wp : Bool) (r : ConnRow) :
    (rowLines wt wf wp r).count CLine.remoteTitle =
      if wt = true ∧ r.inbound = false then 1 else 0 := by
  cases wt <;> cases wf <;> cases wp <;> cases hr : r.inbound <;>
    simp [rowLines, inbTitle, hr, List.count_cons, List.count_nil]

theorem rowLines_count_incoming (wt wf wp : Bool) (r : ConnRow) :
    (rowLines wt wf wp r).count CLine.incomingTitle =
      if wt = true ∧ r.inbound = true then 1 else 0 := by
  cases wt <;> cases wf <;> cases wp <;> cases hr : r.inbound <;>
    simp [rowLines, inbTitle, hr, List.count_cons, List.count_nil]

theorem specChain_count_remote (rest : List ConnRow) :
    ∀ prev : ConnRow, List.Chain inbMono prev rest →
    (specChain prev rest).count CLine.remoteTitle = 0 := by
  induction rest with
  | nil => intro prev _; rfl
  | cons r rest ih =>
    intro prev h
    rcases List.chain_cons.mp h with ⟨hle, hch⟩
    simp only [specChain, List.count_append]
    rw [rowLines_count_remote, ih r hch]
    by_cases hb : prev.inbound = r.inbound
    · simp [hb]
    · have hfb := inbInt_le_ne_bool prev.inbound r.inbound hle hb
      simp [hfb.2]

theorem specChain_count_incoming_true (rest : List ConnRow) :
    ∀ prev : ConnRow, List.Chain inbMono prev rest → prev.inbound = true →
    (specChain prev rest).count CLine.incomingTitle = 0 := by
  induction rest with
  | nil => intro prev _ _; rfl
  | cons r rest ih =>
    intro prev h hp
    rcases List.chain_cons.mp h with ⟨hle, hch⟩
    have hle2 : inbInt prev.inbound ≤ inbInt r.inbound := hle
    rw [hp] at hle2
    have hr : r.inbound = true := inbInt_true_le r.inbound hle2
    simp only [specChain, List.count_append]
    rw [rowLines_count_incoming, ih r hch hr]
    have hb : prev.inbound = r.inbound := by rw [hp, hr]
    simp [hb]

theorem specChain_count_incoming (rest : List ConnRow) :
    ∀ prev : ConnRow, List.Chain inbMono prev rest →
    (specChain prev rest).count CLine.incomingTitle =
      if prev.inbound = false ∧ (∃ x ∈ rest, x.inbound = true) then 1 else 0 := by
  induction rest with
  | nil => intro prev _; simp [specChain]
  | cons r rest ih =>
    intro prev h
    rcases List.chain_cons.mp h with ⟨hle, hch⟩
    simp only [specChain, List.count_append]
    rw [rowLines_count_incoming]
    by_cases hb : prev.inbound = r.inbound
    · rw [ih r hch]
      cases hr : r.inbound
      · have hp : prev.inbound = false := by rw [hb, hr]
        simp [hb, hr, hp, List.exists_mem_cons_iff]
      · have hp : prev.inbound = true := by rw [hb, hr]
        simp [hb, hr, hp]
    · have hfb := inbInt_le_ne_bool prev.inbound r.inbound hle hb
      rw [specChain_count_incoming_true rest r hch hfb.2]
      simp [hb, hfb.1, hfb.2, List.exists_mem_cons_iff]

theorem specRender_count_remote (q : List ConnRow) (hs : List.Sorted connLE q) :
    (specRender q).count CLine.remoteTitle =
      if ∃ x ∈ q, x.inbound = false then 1 else 0 := by
  cases q with
  | nil => simp [specRender]
  | cons r rest =>
    have hch := sorted_chain_inbMono r rest hs
    simp only [specRender, List.count_append]
    rw [rowLines_count_remote, specChain_count_remote rest r hch]
    cases hr : r.inbound
    · simp [hr, List.exists_mem_cons_iff]
    · have hall : ∀ x ∈ rest, x.inbound = true := by
        intro x hx
        have hmx : inbInt r.inbound ≤ inbInt x.inbound :=
          connLE_inbMono ((List.sorted_cons.mp hs).1 x hx)
        rw [hr] at hmx
        exact inbInt_true_le x.inbound hmx
      have hnex : ¬ ∃ x ∈ r :: rest, x.inbound = false := by
        rintro ⟨x, hx, hfx⟩
        rcases List.mem_cons.mp hx with hx | hx
        · rw [hx, hr] at hfx
          exact Bool.noConfusion hfx
        · rw [hall x hx] at hfx
          exact Bool.noConfusion hfx
      rw [if_neg hnex]
      simp [hr]

theorem specRender_count_incoming (q : List ConnRow) (hs : List.Sorted connLE q) :
    (specRender q).count CLine.incomingTitle =
      if ∃ x ∈ q, x.inbound = true then 1 else 0 := by
  cases q with
  | nil => simp [specRender]
  | cons r rest =>
    have hch := sorted_chain_inbMono r rest hs
    simp only [specRender, List.count_append]
    rw [rowLines_count_incoming]
    cases hr : r.inbound
    · rw [specChain_count_incoming rest r hch]
      simp [hr, List.exists_mem_cons_iff]
    · rw [specChain_count_incoming_true rest r hch hr]
      simp [hr, List.exists_mem_cons_iff]

theorem renderExecRow_none_iff (r_name r_argv : List Char) :
    renderExecRow r_name r_argv = none ↔ r_argv = [] := by
  rw [show (renderExecRow r_name r_argv = none ↔
      (stripTrailingEmpty (pySplit (Char.ofNat 0) r_argv)).head? = none) from ?_,
    List.head?_eq_none_iff, strip_pySplit_eq_nil_iff]
  unfold renderExecRow
  rcases h : (stripTrailingEmpty (pySplit (Char.ofNat 0) r_argv)).head? with _ | a0
  · simp [h]
  · simp [h]

theorem push_record_calls_cases (reg : Registry) (p : Proj) :
    (push_record reg p).calls = [RCall.createRecord p.id,
        RCall.uploadFile "resource-record" reg.recordId "bundle.rpz"] ∨
    (push_record reg p).calls = [RCall.createRecord p.id] := by
  unfold push_record
  by_cases h : reg.recordStatus == 200
  · simp [h]
  · simp [h]

end CorrReprozip

/-- C5: shell_escape round-trips: a token with no whitespace and none of
`*$\"'` is returned unchanged (hence escaping it twice equals escaping it
once), and a token containing a space is returned as a double-quoted form
whose content, after undoing the escaping of backslash, double-quote and
dollar, is the original token. -/
theorem C5_shell_escape (s : List Char) :
    ((∀ c ∈ CorrReprozip.shellSpecialChars, ¬ s.contains c) →
      CorrReprozip.shell_escape s = s ∧
      CorrReprozip.shell_escape (CorrReprozip.shell_escape s) =
        CorrReprozip.shell_escape s) ∧
    (' ' ∈ s →
      CorrReprozip.shell_escape s =
        '"' :: CorrReprozip.escapeSpecials s ++ ['"'] ∧
      CorrReprozip.unescapeSpecials (CorrReprozip.escapeSpecials s) = s) := by
  constructor
  · intro h
    have h1 := CorrReprozip.shell_escape_safe s h
    exact ⟨h1, by rw [h1, h1]⟩
  · intro h
    constructor
    · unfold CorrReprozip.shell_escape
      rw [if_pos]
      refine List.any_eq_true.mpr
        ⟨' ', by simp [CorrReprozip.shellSpecialChars, CorrReprozip.pyWhitespace],
          List.elem_eq_true_of_mem h⟩
    · exact CorrReprozip.unescape_escape s

/-- C5 witness: concrete instances of both halves of `C5_shell_escape`. -/
theorem C5_shell_escape_witness :
    CorrReprozip.shell_escape ['a', 'b', 'c'] = ['a', 'b', 'c'] ∧
    CorrReprozip.shell_escape ['a', ' ', '$'] =
      ['"', 'a', ' ', '\\', '$', '"'] ∧
    CorrReprozip.unescapeSpecials
      (CorrReprozip.escapeSpecials ['a', ' ', '$']) = ['a', ' ', '$'] := by
  refine ⟨((C5_shell_escape ['a', 'b', 'c']).1 (by decide)).1, ?_, ?_⟩
  · have h := ((C5_shell_escape ['a', ' ', '$']).2 (by decide)).1
    rw [h]; decide
  · exact ((C5_shell_escape ['a', ' ', '$']).2 (by decide)).2

/-- C1: evaluation of the code at the failing status 265 (0x0109, i.e.
killed by signal 9). The signal bit is set and the signal number is 9; the
`testrun` warning correctly names signal 9, but the report's `exit` column
prints `" sig265 "` — the raw status word after `sig` — and not `sig9`. -/
theorem C1_exit_column_divergence :
    265 &&& 0x0100 ≠ 0 ∧
    265 &&& 0xFF = 9 ∧
    CorrReprozip.exitWarning 265 =
      some "\nWarning: program appears to have been terminated by signal 9" ∧
    CorrReprozip.f_exit 265 = " sig265 " ∧
    CorrReprozip.f_exit 265 ≠ " sig9  " := by
  refine ⟨by decide, by decide, rfl, rfl, by decide⟩

/-- C3: for every tracing-engine outcome (normal return with any status, or
an engine exception) and whether or not reading the store back fails, the
harness-created temporary store no longer exists after `testrun`, and an
engine exception still propagates out of the harness. -/
theorem C3_temp_cleanup (tr : CorrReprozip.TraceOutcome) (dbOk : Bool) :
    (CorrReprozip.testrun tr dbOk).1.tempExists = false ∧
    (tr = CorrReprozip.TraceOutcome.engineFailure →
      (CorrReprozip.testrun tr dbOk).2 = Except.error ()) := by
  cases tr <;> cases dbOk <;>
    simp [CorrReprozip.testrun, CorrReprozip.tryFinallyFS,
      CorrReprozip.testrunBody, CorrReprozip.removeTemp]

/-- C3 witness: the engine-exception case at a concrete input. -/
theorem C3_temp_cleanup_witness :
    (CorrReprozip.testrun CorrReprozip.TraceOutcome.engineFailure true).1.tempExists
        = false ∧
    (CorrReprozip.testrun CorrReprozip.TraceOutcome.engineFailure true).2
        = Except.error () :=
  ⟨(C3_temp_cleanup CorrReprozip.TraceOutcome.engineFailure true).1,
    (C3_temp_cleanup CorrReprozip.TraceOutcome.engineFailure true).2 rfl⟩

/-- C7: whether or not a previous bundle exists, the delegated stages run
strictly in the order trace, configure, package, publish; the configure
stage always has overwriting disabled; the bundle file `bundle.rpz` is
removed exactly when it pre-exists, and that removal happens before the
package stage. -/
theorem C7_pipeline_order (b : Bool) :
    (CorrReprozip.tracePipeline b).filter CorrReprozip.isDelegatedStage =
      [CorrReprozip.StageEv.traceRun, CorrReprozip.StageEv.writeConfig false,
       CorrReprozip.StageEv.packBundle "bundle.rpz", CorrReprozip.StageEv.publish] ∧
    (∀ ov, CorrReprozip.StageEv.writeConfig ov ∈ CorrReprozip.tracePipeline b →
      ov = false) ∧
    (CorrReprozip.StageEv.removeFile "bundle.rpz" ∈ CorrReprozip.tracePipeline b ↔
      b = true) ∧
    (CorrReprozip.tracePipeline true).indexOf
        (CorrReprozip.StageEv.removeFile "bundle.rpz") <
      (CorrReprozip.tracePipeline true).indexOf
        (CorrReprozip.StageEv.packBundle "bundle.rpz") := by
  cases b <;> decide

/-- C4: whenever the listing request succeeds, the listing is internally
consistent (`total_projects` counts the returned projects) and some listed
project carries exactly the requested name, the client issues no
project-create call at all and the record is created under the identifier
of the first exact match. -/
theorem C4_get_or_create (c : CorrReprozip.ApiConfig) (pname : String)
    (reg : CorrReprozip.Registry)
    (hstat : reg.listStatus = 200)
    (hcons : reg.listing.total_projects = Int.ofNat reg.listing.projects.length)
    (hmem : ∃ p ∈ reg.listing.projects, p.name = pname) :
    (∀ n, CorrReprozip.RCall.createProject n ∉
      (CorrReprozip.link_to_corr (some c) pname reg).calls) ∧
    ∃ p, reg.listing.projects.find? (fun q => q.name == pname) = some p ∧
      p.name = pname ∧
      CorrReprozip.RCall.createRecord p.id ∈
        (CorrReprozip.link_to_corr (some c) pname reg).calls := by
  obtain ⟨p0, hp0mem, hp0name⟩ := hmem
  have hfindSome :
      (reg.listing.projects.find? (fun q => q.name == pname)).isSome := by
    apply List.find?_isSome.mpr
    exact ⟨p0, hp0mem, by simpa using hp0name⟩
  obtain ⟨pf, hfind⟩ := Option.isSome_iff_exists.mp hfindSome
  have hpos : (0 : Int) < reg.listing.total_projects := by
    rw [hcons]
    exact Int.ofNat_pos.mpr (List.length_pos.mpr (List.ne_nil_of_mem hp0mem))
  have hscan : CorrReprozip.scanProjects reg.listing pname = some pf := by
    unfold CorrReprozip.scanProjects
    rw [if_pos hpos, hfind]
  have hlog := CorrReprozip.link_log_200_found c pname reg pf hstat hscan
  have hpush := CorrReprozip.push_record_calls_cases reg pf
  constructor
  · intro n hn
    rw [hlog] at hn
    rcases hpush with hp | hp <;> rw [hp] at hn <;> simp at hn
  · refine ⟨pf, hfind, by simpa using List.find?_some hfind, ?_⟩
    rw [hlog]
    rcases hpush with hp | hp <;> rw [hp] <;> simp

/-- C4 witness: a registry that already lists `proj` gets no create call,
and the record is created under the listed identifier `id1`. -/
theorem C4_get_or_create_witness :
    CorrReprozip.RCall.createProject "proj" ∉
      (CorrReprozip.link_to_corr (some CorrReprozip.cfgSample) "proj"
        CorrReprozip.regListed).calls ∧
    CorrReprozip.RCall.createRecord "id1" ∈
      (CorrReprozip.link_to_corr (some CorrReprozip.cfgSample) "proj"
        CorrReprozip.regListed).calls := by
  have h := C4_get_or_create CorrReprozip.cfgSample "proj" CorrReprozip.regListed
    rfl (by decide) ⟨{ id := "id1", name := "proj" }, by decide, rfl⟩
  refine ⟨h.1 "proj", ?_⟩
  obtain ⟨p, hfind, hname, hmem⟩ := h.2
  have hval : CorrReprozip.regListed.listing.projects.find?
      (fun q => q.name == "proj") = some { id := "id1", name := "proj" } := by decide
  rw [hval] at hfind
  cases hfind
  exact hmem

/-- C6 counterexample: the listing endpoint answering with the
2xx-equivalent status 201 is treated as a failure, not a success: the
client aborts after the single GET and surfaces the response body, even
though the claim says any 2xx status counts as success. -/
theorem C6_counterexample :
    200 ≤ CorrReprozip.regTwoOhOne.listStatus ∧
    CorrReprozip.regTwoOhOne.listStatus < 300 ∧
    (CorrReprozip.link_to_corr (some CorrReprozip.cfgSample) "proj"
      CorrReprozip.regTwoOhOne).calls = [CorrReprozip.RCall.getProjects] ∧
    CorrReprozip.regTwoOhOne.listing.raw ∈
      (CorrReprozip.link_to_corr (some CorrReprozip.cfgSample) "proj"
        CorrReprozip.regTwoOhOne).printed := by
  refine ⟨by decide, by decide, ?_, ?_⟩
  · rw [CorrReprozip.link_log_not200 _ _ _ (by decide)]
  · rw [CorrReprozip.link_log_not200 _ _ _ (by decide)]
    simp

/-- C6 amended: for listing and record creation exactly status 200 counts
as success; any other status (2xx or not) aborts the publication with the
response body surfaced verbatim; a record is created if and only if the
listing returned 200; the bundle is uploaded only when the record creation
also returned 200; and no call is ever repeated. -/
theorem C6_status_handling (c : CorrReprozip.ApiConfig) (pname : String)
    (reg : CorrReprozip.Registry) :
    (CorrReprozip.link_to_corr (some c) pname reg).calls.Nodup ∧
    (CorrReprozip.link_to_corr (some c) pname reg).calls.count
      CorrReprozip.RCall.getProjects = 1 ∧
    (reg.listStatus ≠ 200 →
      (CorrReprozip.link_to_corr (some c) pname reg).calls =
        [CorrReprozip.RCall.getProjects] ∧
      reg.listing.raw ∈ (CorrReprozip.link_to_corr (some c) pname reg).printed) ∧
    (reg.listStatus = 200 →
      ∃ pid, CorrReprozip.RCall.createRecord pid ∈
        (CorrReprozip.link_to_corr (some c) pname reg).calls) ∧
    (reg.listStatus = 200 ∧ reg.recordStatus ≠ 200 →
      reg.recordRaw ∈ (CorrReprozip.link_to_corr (some c) pname reg).printed ∧
      ∀ g r f, CorrReprozip.RCall.uploadFile g r f ∉
        (CorrReprozip.link_to_corr (some c) pname reg).calls) ∧
    (reg.listStatus = 200 ∧ reg.recordStatus = 200 →
      CorrReprozip.RCall.uploadFile "resource-record" reg.recordId "bundle.rpz" ∈
        (CorrReprozip.link_to_corr (some c) pname reg).calls) := by
  by_cases hls : reg.listStatus = 200
  · by_cases hrs : reg.recordStatus = 200
    · rcases hscan : CorrReprozip.scanProjects reg.listing pname with _ | p
      · rw [CorrReprozip.link_log_200_none c pname reg hls hscan]
        simp [CorrReprozip.push_record, hrs, hls]
      · rw [CorrReprozip.link_log_200_found c pname reg p hls hscan]
        simp [CorrReprozip.push_record, hrs, hls]
    · rcases hscan : CorrReprozip.scanProjects reg.listing pname with _ | p
      · rw [CorrReprozip.link_log_200_none c pname reg hls hscan]
        simp [CorrReprozip.push_record, hrs, hls]
      · rw [CorrReprozip.link_log_200_found c pname reg p hls hscan]
        simp [CorrReprozip.push_record, hrs, hls]
  · rw [CorrReprozip.link_log_not200 c pname reg hls]
    simp [hls]

/-- C6 witness: a 404 on the listing aborts after the single GET and
surfaces the body. -/
theorem C6_status_handling_witness :
    (CorrReprozip.link_to_corr (some CorrReprozip.cfgSample) "proj"
      CorrReprozip.regNotFoundStatus).calls = [CorrReprozip.RCall.getProjects] ∧
    CorrReprozip.regNotFoundStatus.listing.raw ∈
      (CorrReprozip.link_to_corr (some CorrReprozip.cfgSample) "proj"
        CorrReprozip.regNotFoundStatus).printed :=
  (C6_status_handling CorrReprozip.cfgSample "proj"
    CorrReprozip.regNotFoundStatus).2.2.1 (by decide)

/-- C8: when no registry configuration path is supplied, publication is
skipped with the informational message, no registry endpoint is contacted,
and the function returns normally. -/
theorem C8_skip_without_config (pname : String) (reg : CorrReprozip.Registry) :
    (CorrReprozip.link_to_corr none pname reg).calls = [] ∧
    (CorrReprozip.link_to_corr none pname reg).printed =
      ["Config file not provided."] :=
  ⟨rfl, rfl⟩

/-- C10: the base URL built by the client equals the claim's template
`{host}:{port}{path}/private/{key}/{token}/` with absent fields defaulting
to the empty string except the port, which defaults to 80; concretely, a
fully populated configuration and a fully absent one compose exactly as
the template says, with no URL scheme prepended before the host. -/
theorem C10_server_url :
    (∀ c, CorrReprozip.serverUrl c = CorrReprozip.claimServerUrl c) ∧
    CorrReprozip.serverUrl CorrReprozip.cfgSample =
      "example.org:8080/api/private/KEY/TOKEN/" ∧
    CorrReprozip.serverUrl
      { host := none, port := none, key := none, path := none, app := none } =
      ":80/private///" := by
  refine ⟨?_, rfl, rfl⟩
  intro c
  rcases c with ⟨h, p, k, pa, t⟩
  cases h <;> cases p <;> cases k <;> cases pa <;> cases t <;> rfl

/-- C2 counterexample: in the claim's own four-row example every stored row
has family `IPv4`, so the family component of the grouping key never changes
from one rendered row to the next; yet the rendered output prints the
`IPv4` family sub-header twice (once inside the outbound group and again
after the `Incoming connections` title), so sub-headers are not printed
"only when that component of the grouping key changes from the previous
row". -/
theorem C2_counterexample :
    CorrReprozip.exampleRows.all (fun r => r.family == "IPv4") = true ∧
    (CorrReprozip.renderConnections CorrReprozip.exampleRows).count
      (CorrReprozip.CLine.familyLine "IPv4") = 2 := by
  decide

/-- C2 amended: for every list of connection rows, the query result
deduplicates on (directionality, family, protocol, address) — its key list
is duplicate-free, covers every stored row's key and introduces no new
rows — and is ordered by directionality (outbound before inbound), then
family, then the timestamp of the kept (first-stored) occurrence; the
rendered section equals the grouped rendering in which each directionality
title is printed exactly when the directionality changes (hence at most
once each, remote before incoming), a family sub-header exactly when a
title was just printed or the family differs from the previous row, and a
protocol sub-header exactly when a family sub-header was just printed or
the protocol differs from the previous row; each title appears exactly once
when its directionality occurs at all; and the four-row example renders
exactly three distinct address lines. -/
theorem C2_connections_grouping (rows : List CorrReprozip.ConnRow) :
    ((CorrReprozip.connQuery rows).map CorrReprozip.connKey).Nodup ∧
    (∀ r ∈ rows, CorrReprozip.connKey r ∈
      (CorrReprozip.connQuery rows).map CorrReprozip.connKey) ∧
    (∀ q ∈ CorrReprozip.connQuery rows, q ∈ rows) ∧
    List.Sorted CorrReprozip.connLE (CorrReprozip.connQuery rows) ∧
    CorrReprozip.renderConnections rows =
      CorrReprozip.specRender (CorrReprozip.connQuery rows) ∧
    ((CorrReprozip.renderConnections rows).count CorrReprozip.CLine.remoteTitle =
      if ∃ x ∈ CorrReprozip.connQuery rows, x.inbound = false then 1 else 0) ∧
    ((CorrReprozip.renderConnections rows).count CorrReprozip.CLine.incomingTitle =
      if ∃ x ∈ CorrReprozip.connQuery rows, x.inbound = true then 1 else 0) ∧
    CorrReprozip.renderConnections CorrReprozip.exampleRows =
      [CorrReprozip.CLine.remoteTitle,
       CorrReprozip.CLine.familyLine "IPv4",
       CorrReprozip.CLine.protoLine "TCP",
       CorrReprozip.CLine.addressLine "1.2.3.4",
       CorrReprozip.CLine.protoLine "UDP",
       CorrReprozip.CLine.addressLine "5.6.7.8",
       CorrReprozip.CLine.incomingTitle,
       CorrReprozip.CLine.familyLine "IPv4",
       CorrReprozip.CLine.protoLine "TCP",
       CorrReprozip.CLine.addressLine "9.9.9.9"] ∧
    ((CorrReprozip.renderConnections CorrReprozip.exampleRows).filter
      CorrReprozip.isAddressLine).length = 3 := by
  have hs := CorrReprozip.connQuery_sorted rows
  have hrender : CorrReprozip.renderConnections rows =
      CorrReprozip.specRender (CorrReprozip.connQuery rows) :=
    CorrReprozip.renderLoop_init_eq_specRender (CorrReprozip.connQuery rows) hs
  refine ⟨CorrReprozip.connQuery_keys_nodup rows,
    CorrReprozip.connKey_mem_connQuery rows,
    CorrReprozip.connQuery_subset rows, hs, hrender, ?_, ?_, by decide, by decide⟩
  · rw [hrender]
    exact CorrReprozip.specRender_count_remote (CorrReprozip.connQuery rows) hs
  · rw [hrender]
    exact CorrReprozip.specRender_count_incoming (CorrReprozip.connQuery rows) hs

/-- C2 witness: the membership conjuncts of `C2_connections_grouping`
discharged at the four-row example and its duplicated first row. -/
theorem C2_connections_grouping_witness :
    CorrReprozip.connKey
      { timestamp := 2, inbound := false, family := "IPv4", protocol := "TCP",
        address := "1.2.3.4" } ∈
      (CorrReprozip.connQuery CorrReprozip.exampleRows).map CorrReprozip.connKey ∧
    ((CorrReprozip.connQuery CorrReprozip.exampleRows).map
      CorrReprozip.connKey).Nodup :=
  ⟨(C2_connections_grouping CorrReprozip.exampleRows).2.1
      { timestamp := 2, inbound := false, family := "IPv4", protocol := "TCP",
        address := "1.2.3.4" } (by decide),
    (C2_connections_grouping CorrReprozip.exampleRows).1⟩

/-- C9 counterexample: a row whose raw argument-vector field is `"\0"` has
an argument vector (before and after stripping the trailing empty element)
containing no non-empty element, yet its Executed-files cell renders
successfully — so the section is not "only total" on stores where every
row's vector has a non-empty element. -/
theorem C9_counterexample :
    (CorrReprozip.renderExecRow ['p'] [Char.ofNat 0]).isSome = true ∧
    (CorrReprozip.pySplit (Char.ofNat 0) [Char.ofNat 0]).all
      (fun a => a.isEmpty) = true ∧
    (CorrReprozip.stripTrailingEmpty
      (CorrReprozip.pySplit (Char.ofNat 0) [Char.ofNat 0])).all
      (fun a => a.isEmpty) = true := by
  decide

/-- C9 amended: a row whose raw argument-vector field is the empty string
makes the Executed-files cell fail with an out-of-bounds read, and that is
the only failure: the cell renders if and only if the raw field is
non-empty. -/
theorem C9_exec_row_totality (r_name r_argv : List Char) :
    (r_argv = [] → CorrReprozip.renderExecRow r_name r_argv = none) ∧
    ((CorrReprozip.renderExecRow r_name r_argv).isSome ↔ r_argv ≠ []) := by
  have hiff := CorrReprozip.renderExecRow_none_iff r_name r_argv
  constructor
  · exact fun h => hiff.mpr h
  · rw [Option.isSome_iff_ne_none]
    exact not_congr hiff

/-- C9 witness: the failing empty row and a succeeding one-character row. -/
theorem C9_exec_row_totality_witness :
    CorrReprozip.renderExecRow ['p'] [] = none ∧
    (CorrReprozip.renderExecRow ['p'] ['a']).isSome = true :=
  ⟨(C9_exec_row_totality ['p'] []).1 rfl,
    (C9_exec_row_totality ['p'] ['a']).2.mpr (by decide)⟩

/-- C7 witness: the pipeline with a pre-existing bundle, with the
configure-overwrite and removal-membership hypotheses discharged
concretely. -/
theorem C7_pipeline_order_witness :
    (CorrReprozip.tracePipeline true).filter CorrReprozip.isDelegatedStage =
      [CorrReprozip.StageEv.traceRun, CorrReprozip.StageEv.writeConfig false,
       CorrReprozip.StageEv.packBundle "bundle.rpz", CorrReprozip.StageEv.publish] ∧
    false = false ∧
    CorrReprozip.StageEv.removeFile "bundle.rpz" ∈ CorrReprozip.tracePipeline true :=
  ⟨(C7_pipeline_order true).1,
    (C7_pipeline_order true).2.1 false (by decide),
    (C7_pipeline_order true).2.2.1.mpr rfl⟩
